import Mathlib

/-!
Verification of the block-mapped I/O engine of fs.c (CSS430 BFS user API).

The engine is embedded shallowly: the per-file mutable state that fs.c
reaches through the open-file table and the bfs layer (cursor, logical size,
allocated-block high-water mark, and the block device contents) is collected
in a structure `FS`, and each fs.c operation becomes a pure function from a
state to an `Option` of result and new state.  A `FATAL(...)` call in the C
code, and any execution that runs into C undefined behaviour (a `memcpy`
with a negative count, a variable-length array with a non-positive size, an
out-of-bounds access to a stack buffer), is modelled as `none`.

Machine integers: all `i32` quantities are modelled as `Int` (the claims
quantify over small, in-range values where `i32` arithmetic is exact); the
one place the spec's claims target a narrower machine type - the `i8 len`
span counter in `fsWrite` - is modelled exactly, by an explicit wrap to the
range [-128, 127].  C's `/` and `%` on `i32` truncate toward zero, which is
`Int.tdiv` / `Int.tmod`.
-/

/-- Modelled from the spec: `BYTESPERBLOCK` is defined in bfs.h, which is not
part of the repository sources; the spec's worked example (§8) fixes the
block size at 512 bytes. -/
def BYTESPERBLOCK : Int := 512

/-- C truncating division on `i32` operands (`Int.tdiv` rounds toward zero,
exactly as C99 `/` does). -/
def cdiv (a b : Int) : Int := Int.tdiv a b

/-- C remainder on `i32` operands (`Int.tmod` has the sign of the dividend,
exactly as C99 `%` does). -/
def cmod (a b : Int) : Int := Int.tmod a b

/-- Conversion of an `int` value to the C type `i8` (signed char): two's
complement wrap into [-128, 127], which is what the assignment
`i8 len = right - left + 1;` in fsWrite performs. -/
def i8wrap (x : Int) : Int := (x + 128) % 256 - 128

/-- Modelled from the spec: the `whence` constants come from stdio.h, not
from the repository sources; POSIX fixes them as 0, 1, 2. -/
def SEEK_SET : Int := 0

/-- Modelled from the spec: see `SEEK_SET`. -/
def SEEK_CUR : Int := 1

/-- Modelled from the spec: see `SEEK_SET`. -/
def SEEK_END : Int := 2

/-- The state of one open file as fs.c reaches it through the bfs layer:
`curs` is the open-file-table cursor (`g_oft[ofte].curs`, read by
`bfsTell`), `size` is the inode's logical size (`bfsGetSize` /
`bfsSetSize`), `alloc` is the highest FBN the external allocator has been
asked to provide (`bfsExtend`), and `disk fbn j` is byte `j` of the device
block that FBN `fbn` resolves to (`bfsRead` / `bioWrite` after
`bfsFbnToDbn`).  The disk is total: the bfs collaborators are external to
the repository and assumed to succeed, per spec §6. -/
structure FS where
  curs : Int
  size : Int
  alloc : Int
  disk : Int → Int → Int

/-- Default state used only to give `Option.getD` a value in witnesses. -/
def FS0 : FS := { curs := 0, size := 0, alloc := 0, disk := fun _ _ => 0 }

/-- Embedding of `fsSeek` (fs.c lines 159-182).  `FATAL(EBADCURS)` on a
negative `offset` and `FATAL(EBADWHENCE)` on an unrecognized `whence` are
`none`; on success the C function returns 0. -/
def fsSeek (st : FS) (offset : Int) (whence : Int) : Option (Int × FS) :=
  if offset < 0 then none
  else if whence = SEEK_SET then some (0, { st with curs := offset })
  else if whence = SEEK_CUR then some (0, { st with curs := st.curs + offset })
  else if whence = SEEK_END then some (0, { st with curs := st.size + offset })
  else none

/-- Embedding of `fsTell` (fs.c lines 189-191): returns the cursor. -/
def fsTell (st : FS) : Int := st.curs

/-- Embedding of `fsSize` (fs.c lines 200-203): returns the logical size. -/
def fsSize (st : FS) : Int := st.size

/-- Embedding of `fsRead` (fs.c lines 88-146).  Returns
`some (returnValue, bytesCopiedIntoBuf, newState)`:
`returnValue` is the `i32` the C function returns, and `bytesCopiedIntoBuf`
is the exact sequence of bytes the function `memcpy`s into the caller's
buffer, in order (the caller's buffer is written left to right at
offset 0).  `left` and `right` are the FBN bounds of lines 93-94, the clamp
is lines 98-101, the single-block path is lines 108-118 and the multi-block
loop is lines 121-141; the final `fsSeek(fd, numb, SEEK_CUR)` is the one the
C code performs, so a clamp that drives `numb` negative aborts there exactly
as the C code's `FATAL(EBADCURS)` does.  A `memcpy` with a negative count on
the single-block path (reachable when the cursor is beyond the file size) is
undefined behaviour, modelled as `none`. -/
def fsRead (st : FS) (numb0 : Int) : Option (Int × List Int × FS) :=
  let currCursor := st.curs
  let fileSize := st.size
  let left := cdiv currCursor BYTESPERBLOCK
  let numb := if numb0 + currCursor > fileSize then fileSize - currCursor else numb0
  let right := cdiv (currCursor + numb) BYTESPERBLOCK
  if left = right then
    if numb < 0 then none
    else
      let startOffset := cmod currCursor BYTESPERBLOCK
      let out := (List.range numb.toNat).map (fun j => st.disk left (startOffset + (j : Int)))
      (fsSeek st numb SEEK_CUR).map (fun p => (numb, out, p.2))
  else
    let segs := (List.range (right - left + 1).toNat).map (fun k =>
      let i := left + (k : Int)
      let startOffset := if i = left then cmod currCursor BYTESPERBLOCK else 0
      let bytesToCopy :=
        if i = right ∧ cmod numb BYTESPERBLOCK ≠ 0 then cmod numb BYTESPERBLOCK
        else BYTESPERBLOCK - startOffset
      (List.range bytesToCopy.toNat).map (fun j => st.disk i (startOffset + (j : Int))))
    (fsSeek st numb SEEK_CUR).map (fun p => (numb, segs.flatten, p.2))

/-- Embedding of `fsWrite` (fs.c lines 212-254).  `buf i` is byte `i` of the
caller's buffer and `junk` is the arbitrary initial content of the
uninitialized stack array `simulatedMem` (the theorems hold for every
`junk`).  Lines 217-219 compute the FBN span, lines 222-225 are the
extension path (`bfsExtend` is modelled as raising the allocation
high-water mark; it does not change block contents, so a sparse extension
exposes stale bytes exactly as spec §4.1 warns), line 228 truncates the
span count to `i8`, and line 229 allocates the staging VLA: a non-positive
`len` is an invalid VLA size and a `len` smaller than the true span makes
the later `memcpy` and block writes run past the staging array - both
undefined behaviour, modelled as `none`, as is a negative `numb` at the
`memcpy` of line 239.  `staging1`/`staging2` are the boundary-block
pre-reads of lines 233-236, `staging3` is the `memcpy` of line 239, and the
write-back loop of lines 245-249 produces `disk2`.  On success the C
function returns 0. -/
def fsWrite (st : FS) (numb : Int) (buf : Int → Int) (junk : Int → Int) :
    Option (Int × FS) :=
  let currCursor := st.curs
  let left := cdiv currCursor BYTESPERBLOCK
  let right := cdiv (currCursor + numb) BYTESPERBLOCK
  let fileSize := st.size
  let st1 := if currCursor + numb > fileSize then
      { st with alloc := max st.alloc right, size := currCursor + numb }
    else st
  let len := i8wrap (right - left + 1)
  if len ≤ 0 then none
  else if len ≠ right - left + 1 then none
  else if numb < 0 then none
  else
    let staging1 : Int → Int := fun idx =>
      if 0 ≤ idx ∧ idx < BYTESPERBLOCK then st.disk left idx else junk idx
    let staging2 : Int → Int :=
      if 1 < len then
        (fun idx =>
          if (len - 1) * BYTESPERBLOCK ≤ idx ∧ idx < len * BYTESPERBLOCK then
            st.disk right (idx - (len - 1) * BYTESPERBLOCK)
          else staging1 idx)
      else staging1
    let staging3 : Int → Int := fun idx =>
      if cmod currCursor BYTESPERBLOCK ≤ idx ∧
         idx < cmod currCursor BYTESPERBLOCK + numb then
        buf (idx - cmod currCursor BYTESPERBLOCK)
      else staging2 idx
    let disk2 : Int → Int → Int := fun fbn j =>
      if left ≤ fbn ∧ fbn ≤ right then staging3 ((fbn - left) * BYTESPERBLOCK + j)
      else st1.disk fbn j
    (fsSeek { st1 with disk := disk2 } numb SEEK_CUR).map (fun p => (0, p.2))

/-- On non-negative operands (the only ones the claims reach), C's
truncating division by the block size agrees with Euclidean division. -/
theorem cdiv_eq_ediv (a : Int) (h : 0 ≤ a) : cdiv a BYTESPERBLOCK = a / 512 := by
  unfold cdiv BYTESPERBLOCK
  exact Int.tdiv_eq_ediv h (by norm_num)

/-- On non-negative operands, C's remainder by the block size agrees with
the Euclidean remainder. -/
theorem cmod_eq_emod (a : Int) (h : 0 ≤ a) : cmod a BYTESPERBLOCK = a % 512 := by
  unfold cmod BYTESPERBLOCK
  exact Int.tmod_eq_emod h (by norm_num)


/-- A relative seek by a non-negative offset always succeeds and adds the
offset to the cursor (fs.c lines 170-171). -/
theorem fsSeek_cur (s : FS) (off : Int) (h : 0 ≤ off) :
    fsSeek s off SEEK_CUR = some (0, { s with curs := s.curs + off }) := by
  unfold fsSeek SEEK_CUR SEEK_SET
  rw [if_neg (by omega)]
  norm_num

/-- The byte the staging region of `fsWrite` holds at offset `idx` just
before the write-back loop: the caller's bytes over the span
`[cursor mod B, cursor mod B + numb)`, the pre-read of the last affected
block over its slot (when the span has more than one block), the pre-read
of the first affected block over slot 0, and the uninitialized stack
contents everywhere else. -/
def stagedByte (st : FS) (numb : Int) (buf junk : Int → Int) (idx : Int) : Int :=
  let left := cdiv st.curs BYTESPERBLOCK
  let right := cdiv (st.curs + numb) BYTESPERBLOCK
  let len := right - left + 1
  if cmod st.curs BYTESPERBLOCK ≤ idx ∧ idx < cmod st.curs BYTESPERBLOCK + numb then
    buf (idx - cmod st.curs BYTESPERBLOCK)
  else if 1 < len ∧ (len - 1) * BYTESPERBLOCK ≤ idx ∧ idx < len * BYTESPERBLOCK then
    st.disk right (idx - (len - 1) * BYTESPERBLOCK)
  else if 0 ≤ idx ∧ idx < BYTESPERBLOCK then
    st.disk left idx
  else junk idx

/-- Characterization of a successful `fsWrite`: the request count was
non-negative, the block span fits the `i8` counter, the returned value is 0,
the cursor advances by `numb`, size and allocation grow exactly on the
extension path, and every block in the span is replaced by its slice of the
staging region while all other blocks are untouched. -/
theorem fsWrite_inv (st : FS) (numb : Int) (buf junk : Int → Int) (r : Int) (st' : FS)
    (h : fsWrite st numb buf junk = some (r, st')) :
    0 ≤ numb ∧ r = 0 ∧
    0 < cdiv (st.curs + numb) BYTESPERBLOCK - cdiv st.curs BYTESPERBLOCK + 1 ∧
    cdiv (st.curs + numb) BYTESPERBLOCK - cdiv st.curs BYTESPERBLOCK + 1 ≤ 127 ∧
    st'.curs = st.curs + numb ∧
    st'.size = (if st.curs + numb > st.size then st.curs + numb else st.size) ∧
    st'.alloc = (if st.curs + numb > st.size then
        max st.alloc (cdiv (st.curs + numb) BYTESPERBLOCK) else st.alloc) ∧
    ∀ fbn j, st'.disk fbn j =
      (if cdiv st.curs BYTESPERBLOCK ≤ fbn ∧ fbn ≤ cdiv (st.curs + numb) BYTESPERBLOCK then
        stagedByte st numb buf junk ((fbn - cdiv st.curs BYTESPERBLOCK) * BYTESPERBLOCK + j)
      else st.disk fbn j) := by
  simp only [fsWrite] at h
  split at h
  · exact absurd h (by simp)
  split at h
  · exact absurd h (by simp)
  split at h
  · exact absurd h (by simp)
  rename_i hlen0 hlen hnumb
  have hspan : i8wrap (cdiv (st.curs + numb) BYTESPERBLOCK - cdiv st.curs BYTESPERBLOCK + 1) =
      cdiv (st.curs + numb) BYTESPERBLOCK - cdiv st.curs BYTESPERBLOCK + 1 := by
    exact not_ne_iff.mp hlen
  have hnumb' : 0 ≤ numb := by omega
  have hb1 : 0 < cdiv (st.curs + numb) BYTESPERBLOCK - cdiv st.curs BYTESPERBLOCK + 1 := by
    unfold i8wrap at hspan; omega
  have hb2 : cdiv (st.curs + numb) BYTESPERBLOCK - cdiv st.curs BYTESPERBLOCK + 1 ≤ 127 := by
    unfold i8wrap at hspan; omega
  rw [fsSeek_cur _ numb hnumb', Option.map_some'] at h
  simp only [Option.some.injEq, Prod.mk.injEq] at h
  obtain ⟨hr, hst⟩ := h
  subst hst
  refine ⟨hnumb', hr.symm, hb1, hb2, ?_, ?_, ?_, ?_⟩
  · simp only [apply_ite FS.curs, ite_self]
  · simp only [apply_ite FS.size]
  · simp only [apply_ite FS.alloc]
  · intro fbn j
    dsimp only
    rw [hspan]
    simp only [stagedByte, apply_ite
      (fun f : Int → Int => f ((fbn - cdiv st.curs BYTESPERBLOCK) * BYTESPERBLOCK + j)),
      apply_ite FS.disk]
    split_ifs <;> first | rfl | tauto

/-- A small open file used as the concrete input of several witnesses:
cursor 0, size 0, empty zeroed disk. -/
def wSmall : FS := { curs := 0, size := 0, alloc := 0, disk := fun _ _ => 0 }

/-- The outcome of writing one byte to `wSmall` (the write succeeds, so
`getD` returns the computed pair). -/
def wSmallRes : Int × FS := (fsWrite wSmall 1 (fun _ => 7) (fun _ => 0)).getD (0, FS0)

/-- C6 counterexample: the claim says fsWrite returns the requested `numb`
on success; on a successful one-byte write the code returns 0, not 1
(fs.c line 253 is `return 0;`). -/
theorem fsWrite_returns_zero_cex :
    (fsWrite wSmall 1 (fun _ => 7) (fun _ => 0)).map Prod.fst = some 0 ∧ (0 : Int) ≠ 1 :=
  ⟨rfl, by decide⟩

/-- C6 amended: on success fsWrite always returns 0 (its documented
contract, fs.c lines 210 and 253), committing `numb` bytes but never
reporting them through the return value. -/
theorem fsWrite_returns_zero (st : FS) (numb : Int) (buf junk : Int → Int) (r : Int)
    (st' : FS) (h : fsWrite st numb buf junk = some (r, st')) : r = 0 :=
  (fsWrite_inv st numb buf junk r st' h).2.1

/-- Witness for `fsWrite_returns_zero` at the one-byte write on `wSmall`. -/
theorem fsWrite_returns_zero_witness : wSmallRes.1 = 0 :=
  fsWrite_returns_zero wSmall 1 (fun _ => 7) (fun _ => 0) wSmallRes.1 wSmallRes.2 rfl

/-- C4: a write past the current size sets the size to exactly
`cursor + numb` and asks the allocator for blocks up through FBN
`(cursor + numb) div BYTESPERBLOCK`; a write inside the current size leaves
the size unchanged; a write never shrinks the file (fs.c lines 217-225). -/
theorem fsWrite_extension (st : FS) (numb : Int) (buf junk : Int → Int) (r : Int)
    (st' : FS) (h : fsWrite st numb buf junk = some (r, st')) :
    (st.curs + numb > st.size →
      st'.size = st.curs + numb ∧
      st'.alloc = max st.alloc (cdiv (st.curs + numb) BYTESPERBLOCK)) ∧
    (st.curs + numb ≤ st.size → st'.size = st.size) ∧
    st.size ≤ st'.size := by
  obtain ⟨-, -, -, -, -, hsize, halloc, -⟩ := fsWrite_inv st numb buf junk r st' h
  refine ⟨fun hg => ⟨?_, ?_⟩, fun hg => ?_, ?_⟩
  · rw [hsize, if_pos hg]
  · rw [halloc, if_pos hg]
  · rw [hsize, if_neg (by omega)]
  · rw [hsize]; split <;> omega

/-- Witness for `fsWrite_extension` at the one-byte write on `wSmall`. -/
theorem fsWrite_extension_witness :
    wSmallRes.2.size = wSmall.curs + 1 ∧
    wSmallRes.2.alloc = max wSmall.alloc (cdiv (wSmall.curs + 1) BYTESPERBLOCK) :=
  (fsWrite_extension wSmall 1 (fun _ => 7) (fun _ => 0) wSmallRes.1 wSmallRes.2 rfl).1
    (by decide)

/-- A file whose size (100) is far below the cursor (600), for the
zero-length sparse-extension write of C10. -/
def sparseSt : FS := { curs := 600, size := 100, alloc := 0, disk := fun _ _ => 0 }

/-- C10: when the cursor sits beyond the current size, writing zero bytes
still takes the extension path of fs.c lines 222-225: it succeeds (returning
0), asks the allocator for blocks up through FBN
`cursor div BYTESPERBLOCK`, and sets the logical size to the cursor. -/
theorem fsWrite_zero_numb_grows (st : FS) (buf junk : Int → Int)
    (_h0 : 0 ≤ st.size) (h1 : st.size < st.curs) :
    (fsWrite st 0 buf junk).map (fun p => (p.1, p.2.size, p.2.alloc)) =
      some (0, st.curs, max st.alloc (cdiv st.curs BYTESPERBLOCK)) := by
  unfold fsWrite
  simp only [add_zero, sub_self, zero_add]
  rw [if_neg (by norm_num [i8wrap]), if_neg (by norm_num [i8wrap]),
    if_neg (by norm_num), if_pos (by omega : st.curs > st.size)]
  rw [fsSeek_cur _ 0 le_rfl]
  rfl

/-- Witness for `fsWrite_zero_numb_grows` on `sparseSt`. -/
theorem fsWrite_zero_numb_grows_witness :
    (fsWrite sparseSt 0 (fun _ => 7) (fun _ => 0)).map (fun p => (p.1, p.2.size, p.2.alloc)) =
      some (0, sparseSt.curs, max sparseSt.alloc (cdiv sparseSt.curs BYTESPERBLOCK)) :=
  fsWrite_zero_numb_grows sparseSt (fun _ => 7) (fun _ => 0) (by decide) (by decide)

/-- C8: the staging-region span counter is the `i8` variable `len` of fs.c
line 228.  For a write of 65024 bytes at cursor 0 the block span
`right - left + 1` is 128, which wraps to -128 in `i8`; the staging region
is then a negative-size variable-length array, not the 128 blocks the claim
asserts (undefined behaviour, modelled as failure of the whole write). -/
theorem fsWrite_i8_span_overflow :
    cdiv (0 + 65024) BYTESPERBLOCK - cdiv 0 BYTESPERBLOCK + 1 = 128 ∧
    i8wrap 128 = -128 ∧
    fsWrite wSmall 65024 (fun _ => 1) (fun _ => 0) = none :=
  ⟨by decide, by decide, rfl⟩

/-- A seek never changes the inode's logical size, whatever the offset and
whence: every branch of fs.c lines 166-180 assigns only to the cursor. -/
theorem fsSeek_size_eq (s : FS) (off w r : Int) (s' : FS)
    (h : fsSeek s off w = some (r, s')) : s'.size = s.size := by
  unfold fsSeek at h
  split_ifs at h <;>
    first
      | exact Option.noConfusion h
      | (simp only [Option.some.injEq, Prod.mk.injEq] at h
         obtain ⟨-, h2⟩ := h
         subst h2
         rfl)

/-- C7: `fsSeek` with SET, CUR and END sets the cursor to `offset`,
`cursor + offset` and `fileSize + offset` respectively, returns 0, and
`fsTell` then reports the resulting cursor; it fails exactly when the input
offset is negative or the whence value is unrecognized - the computed
cursor is never checked (fs.c lines 159-182, 189-191). -/
theorem fsSeek_fsTell_spec (st : FS) (off w : Int) :
    (0 ≤ off → (fsSeek st off SEEK_SET).map (fun p => (p.1, fsTell p.2)) = some (0, off)) ∧
    (0 ≤ off → (fsSeek st off SEEK_CUR).map (fun p => (p.1, fsTell p.2)) =
        some (0, fsTell st + off)) ∧
    (0 ≤ off → (fsSeek st off SEEK_END).map (fun p => (p.1, fsTell p.2)) =
        some (0, fsSize st + off)) ∧
    (fsSeek st off w = none ↔ off < 0 ∨ (w ≠ SEEK_SET ∧ w ≠ SEEK_CUR ∧ w ≠ SEEK_END)) := by
  refine ⟨?_, ?_, ?_, ?_⟩
  · intro h
    unfold fsSeek SEEK_SET
    rw [if_neg (by omega)]
    norm_num
    rfl
  · intro h
    rw [fsSeek_cur st off h]
    rfl
  · intro h
    unfold fsSeek SEEK_END SEEK_SET SEEK_CUR
    rw [if_neg (by omega)]
    norm_num
    rfl
  · constructor
    · intro h
      by_cases h0 : off < 0
      · exact Or.inl h0
      · right
        unfold fsSeek at h
        rw [if_neg h0] at h
        split_ifs at h <;> simp_all
    · intro h
      unfold fsSeek
      rcases h with h0 | ⟨h1, h2, h3⟩
      · rw [if_pos h0]
      · by_cases h0 : off < 0
        · rw [if_pos h0]
        · rw [if_neg h0, if_neg h1, if_neg h2, if_neg h3]

/-- Witness for `fsSeek_fsTell_spec` on `sparseSt` with offset 10 and the
unrecognized whence value 5. -/
theorem fsSeek_fsTell_spec_witness :
    (fsSeek sparseSt 10 SEEK_SET).map (fun p => (p.1, fsTell p.2)) = some (0, 10) ∧
    (fsSeek sparseSt 10 SEEK_CUR).map (fun p => (p.1, fsTell p.2)) =
      some (0, fsTell sparseSt + 10) ∧
    (fsSeek sparseSt 10 SEEK_END).map (fun p => (p.1, fsTell p.2)) =
      some (0, fsSize sparseSt + 10) ∧
    (fsSeek sparseSt 10 5 = none ↔
      (10 : Int) < 0 ∨ ((5 : Int) ≠ SEEK_SET ∧ (5 : Int) ≠ SEEK_CUR ∧ (5 : Int) ≠ SEEK_END)) :=
  ⟨(fsSeek_fsTell_spec sparseSt 10 5).1 (by decide),
   (fsSeek_fsTell_spec sparseSt 10 5).2.1 (by decide),
   (fsSeek_fsTell_spec sparseSt 10 5).2.2.1 (by decide),
   (fsSeek_fsTell_spec sparseSt 10 5).2.2.2⟩

/-- C9: neither `fsSeek` (any offset, any whence, even past end-of-file) nor
`fsRead` ever changes the logical file size; among the engine's operations
only `fsWrite` writes it (`bfsSetSize` is called nowhere else; the comment
above fs.c's `fsSize` claiming the size depends on the highest `fsSeek`
offset is wrong).  `fsTell` and `fsSize` are pure reads. -/
theorem fsSeek_fsRead_preserve_size (st st1 st2 : FS) (off w n r1 r2 : Int)
    (out : List Int) :
    (fsSeek st off w = some (r1, st1) → fsSize st1 = fsSize st) ∧
    (fsRead st n = some (r2, out, st2) → fsSize st2 = fsSize st) := by
  constructor
  · exact fun h => fsSeek_size_eq st off w r1 st1 h
  · intro h
    simp only [fsRead] at h
    generalize (if n + st.curs > st.size then st.size - st.curs else n) = m at h
    split at h
    · split at h
      · exact Option.noConfusion h
      · rcases hs : fsSeek st m SEEK_CUR with _ | p
        · rw [hs] at h
          exact Option.noConfusion h
        · rw [hs] at h
          simp only [Option.map_some', Option.some.injEq, Prod.mk.injEq] at h
          obtain ⟨-, -, h3⟩ := h
          subst h3
          exact fsSeek_size_eq st m SEEK_CUR p.1 p.2 (by rw [hs])
    · rcases hs : fsSeek st m SEEK_CUR with _ | p
      · rw [hs] at h
        exact Option.noConfusion h
      · rw [hs] at h
        simp only [Option.map_some', Option.some.injEq, Prod.mk.injEq] at h
        obtain ⟨-, -, h3⟩ := h
        subst h3
        exact fsSeek_size_eq st m SEEK_CUR p.1 p.2 (by rw [hs])

/-- A file with cursor 10 and size 100, on which both a seek and a small
read succeed; used by the C9 witness. -/
def readSt : FS := { curs := 10, size := 100, alloc := 0, disk := fun _ _ => 0 }

/-- Witness for `fsSeek_fsRead_preserve_size`: a SET seek to 10 and a
3-byte read on `readSt` (size 100) both leave the size at 100. -/
theorem fsSeek_fsRead_preserve_size_witness :
    fsSize ((fsSeek readSt 10 SEEK_SET).getD (0, FS0)).2 = fsSize readSt ∧
    fsSize ((fsRead readSt 3).getD (0, [], FS0)).2.2 = fsSize readSt :=
  ⟨(fsSeek_fsRead_preserve_size readSt ((fsSeek readSt 10 SEEK_SET).getD (0, FS0)).2
      ((fsRead readSt 3).getD (0, [], FS0)).2.2 10 SEEK_SET 3
      ((fsSeek readSt 10 SEEK_SET).getD (0, FS0)).1
      ((fsRead readSt 3).getD (0, [], FS0)).1
      ((fsRead readSt 3).getD (0, [], FS0)).2.1).1 rfl,
   (fsSeek_fsRead_preserve_size readSt ((fsSeek readSt 10 SEEK_SET).getD (0, FS0)).2
      ((fsRead readSt 3).getD (0, [], FS0)).2.2 10 SEEK_SET 3
      ((fsSeek readSt 10 SEEK_SET).getD (0, FS0)).1
      ((fsRead readSt 3).getD (0, [], FS0)).1
      ((fsRead readSt 3).getD (0, [], FS0)).2.1).2 rfl⟩


/-- A file of size 0 whose cursor (1) is strictly beyond end-of-file. -/
def beyondSt : FS := { curs := 1, size := 0, alloc := 0, disk := fun _ _ => 0 }

/-- C3 counterexample: the claim says that with the cursor at or beyond
fileSize the clamped count is 0, so fsRead returns 0 and the cursor does
not move.  With cursor 1 on a file of size 0 the code clamps `numb` to
`fileSize - cursor = -1` (fs.c line 99) and the call aborts (the negative
count reaches `memcpy` and then `fsSeek`, whose `FATAL(EBADCURS)` fires);
it does not return 0. -/
theorem fsRead_beyond_eof_aborts : fsRead beyondSt 1 = none := rfl

/-- C3 amended: when the cursor sits at `fileSize - k` (0 ≤ k ≤ fileSize)
and more than `k` bytes are requested, fsRead returns exactly `k` bytes,
leaves the cursor at end-of-file and the size unchanged - in particular at
exactly end-of-file it returns 0 and the cursor does not move; but when the
cursor is strictly beyond fileSize the clamped count is negative (not 0)
and fsRead aborts instead of returning 0. -/
theorem fsRead_clamped (st : FS) (k n : Int) :
    (0 ≤ k → k ≤ st.size → st.curs = st.size - k → k < n →
      (fsRead st n).map (fun p => (p.1, p.2.2.curs, p.2.2.size)) =
        some (k, st.size, st.size)) ∧
    (st.size < st.curs → fsRead st n = none) := by
  constructor
  · intro h1 h2 h3 h4
    simp only [fsRead]
    rw [if_pos (by omega : n + st.curs > st.size),
      (by omega : st.size - st.curs = k)]
    split
    · rw [if_neg (by omega : ¬ k < 0), fsSeek_cur st k h1]
      simp only [Option.map_some', Option.some.injEq, Prod.mk.injEq]
      refine ⟨trivial, ?_, trivial⟩
      show st.curs + k = st.size
      omega
    · rw [fsSeek_cur st k h1]
      simp only [Option.map_some', Option.some.injEq, Prod.mk.injEq]
      refine ⟨trivial, ?_, trivial⟩
      show st.curs + k = st.size
      omega
  · intro hlt
    simp only [fsRead]
    have hm : (if n + st.curs > st.size then st.size - st.curs else n) < 0 := by
      split <;> omega
    generalize hgen : (if n + st.curs > st.size then st.size - st.curs else n) = m at hm ⊢
    have hseek : fsSeek st m SEEK_CUR = none := by
      unfold fsSeek
      rw [if_pos hm]
    split <;>
      first
        | rfl
        | (rw [hseek]; rfl)

/-- Witness for `fsRead_clamped`: on `readSt` (size 100, cursor 10, so
k = 90) a request of 200 bytes returns 90 with the cursor left at 100; and
on `beyondSt` a read aborts. -/
theorem fsRead_clamped_witness :
    (fsRead readSt 200).map (fun p => (p.1, p.2.2.curs, p.2.2.size)) =
      some (90, readSt.size, readSt.size) ∧
    fsRead beyondSt 7 = none :=
  ⟨(fsRead_clamped readSt 90 200).1 (by decide) (by decide) (by decide) (by decide),
   (fsRead_clamped beyondSt 0 7).2 (by decide)⟩

/-- A file of 700 zeroed bytes with the cursor at 100, the setting in which
the read-side copy-length bug shows. -/
def midSt : FS := { curs := 100, size := 700, alloc := 2, disk := fun _ _ => 0 }

/-- A file of exactly 512 bytes (one block) whose block 0 holds zeros and
whose (unallocated, beyond-EOF) block 1 holds ones. -/
def oneBlockSt : FS := { curs := 0, size := 512, alloc := 0, disk := fun fbn _ => fbn }

set_option maxRecDepth 100000 in
/-- C2 evaluation at the failing inputs.  First conjunct: with cursor 100 on
a 700-byte file, a 600-byte read returns 600 but copies only 500 bytes into
the caller's buffer (the last-block length of fs.c line 135 is
`numb mod 512 = 88` instead of the 188 bytes that remain), so the copied
count differs from the return value and the per-block segment lengths do
not sum to the clamped `numb`.  Second conjunct: with cursor 0 on a
512-byte file, a 512-byte read computes `right = 512/512 = 1` (fs.c
line 94), reads FBN 1 - a block entirely beyond the logical file size -
and copies 1024 bytes, 512 of them from past end-of-file (the trailing 512
ones come from block 1). -/
theorem fsRead_copied_ne_returned :
    (fsRead midSt 600).map (fun p => (p.1, p.2.1.length)) = some (600, 500) ∧
    (500 : Int) ≠ 600 ∧
    (fsRead oneBlockSt 512).map (fun p => (p.1, p.2.1.length, p.2.1.drop 512)) =
      some (512, 1024, List.replicate 512 1) :=
  ⟨by decide, by decide, by decide⟩

/-- The write-seek-read round trip of C1: write the 600 bytes
1, 2, ..., 600 at cursor 100 of `midSt`, seek back to 100, read 600. -/
def rtChain : Option (Int × List Int × FS) :=
  (fsWrite midSt 600 (fun i => i + 1) (fun _ => 0)).bind (fun p =>
    (fsSeek p.2 100 SEEK_SET).bind (fun q => fsRead q.2 600))

set_option maxRecDepth 100000 in
/-- C1 evaluation at the failing input: after writing 600 bytes at cursor
100 and seeking back, the read reports 600 bytes but delivers only the 500
bytes 1..500 into the caller's buffer - not the 600 bytes that were
written, so the round trip fails (the write itself is correct; the read's
last-block length `numb mod 512` of fs.c line 135 drops the final 100
bytes). -/
theorem fsRead_roundtrip_fails :
    rtChain.map (fun p => (p.1, p.2.1.length)) = some (600, 500) ∧
    rtChain.map (fun p => p.2.1) = some ((List.range 500).map (fun j => (j : Int) + 1)) ∧
    rtChain.map (fun p => p.2.1) ≠ some ((List.range 600).map (fun j => (j : Int) + 1)) :=
  ⟨by decide, by decide, by decide⟩

/-- C5: for a successful write of `numb` bytes at cursor `c`, every byte of
the first affected block (`c div B`) and of the last affected block
(`(c+numb) div B`) whose absolute position lies outside the written span
`[c, c+numb)` keeps its previous value, and exactly `numb` bytes are
committed: the byte at absolute position `c + i` equals `buf i` for every
`0 ≤ i < numb` (fs.c lines 228-249: the pre-reads of the two boundary
blocks followed by the `memcpy` merge and the write-back loop). -/
theorem fsWrite_boundary_preservation (st : FS) (numb : Int) (buf junk : Int → Int)
    (r : Int) (st' : FS) (j i : Int) (hc : 0 ≤ st.curs)
    (h : fsWrite st numb buf junk = some (r, st')) :
    (0 ≤ j → j < BYTESPERBLOCK →
      (cdiv st.curs BYTESPERBLOCK * BYTESPERBLOCK + j < st.curs ∨
       st.curs + numb ≤ cdiv st.curs BYTESPERBLOCK * BYTESPERBLOCK + j) →
      st'.disk (cdiv st.curs BYTESPERBLOCK) j = st.disk (cdiv st.curs BYTESPERBLOCK) j) ∧
    (0 ≤ j → j < BYTESPERBLOCK →
      (cdiv (st.curs + numb) BYTESPERBLOCK * BYTESPERBLOCK + j < st.curs ∨
       st.curs + numb ≤ cdiv (st.curs + numb) BYTESPERBLOCK * BYTESPERBLOCK + j) →
      st'.disk (cdiv (st.curs + numb) BYTESPERBLOCK) j =
        st.disk (cdiv (st.curs + numb) BYTESPERBLOCK) j) ∧
    (0 ≤ i → i < numb →
      st'.disk (cdiv (st.curs + i) BYTESPERBLOCK) (cmod (st.curs + i) BYTESPERBLOCK) =
        buf i) := by
  obtain ⟨hnumb, -, hb1, hb2, -, -, -, hdisk⟩ := fsWrite_inv st numb buf junk r st' h
  have hc2 : (0:Int) ≤ st.curs + numb := by omega
  rw [cdiv_eq_ediv st.curs hc, cdiv_eq_ediv (st.curs + numb) hc2] at hb1 hb2
  simp only [stagedByte, cdiv_eq_ediv st.curs hc, cdiv_eq_ediv (st.curs + numb) hc2,
    cmod_eq_emod st.curs hc] at hdisk
  simp only [BYTESPERBLOCK] at hdisk
  refine ⟨?_, ?_, ?_⟩
  · intro hj0 hj1 hout
    rw [cdiv_eq_ediv st.curs hc] at hout ⊢
    simp only [BYTESPERBLOCK] at hj1 hout
    rw [hdisk (st.curs / 512) j, if_pos (by omega),
      (by omega : (st.curs / 512 - st.curs / 512) * 512 + j = j),
      if_neg (by omega), if_neg (by omega), if_pos (by omega)]
  · intro hj0 hj1 hout
    rw [cdiv_eq_ediv (st.curs + numb) hc2] at hout ⊢
    simp only [BYTESPERBLOCK] at hj1 hout
    rw [hdisk ((st.curs + numb) / 512) j, if_pos (by omega)]
    by_cases hLR : st.curs / 512 < (st.curs + numb) / 512
    · rw [if_neg (by omega), if_pos (by omega),
        (by omega : ((st.curs + numb) / 512 - st.curs / 512) * 512 + j -
          ((st.curs + numb) / 512 - st.curs / 512 + 1 - 1) * 512 = j)]
    · have hLReq : st.curs / 512 = (st.curs + numb) / 512 := by omega
      rw [← hLReq] at hout ⊢
      rw [(by omega : (st.curs / 512 - st.curs / 512) * 512 + j = j),
        if_neg (by omega), if_neg (by omega), if_pos (by omega)]
  · intro hi0 hi1
    have hc3 : (0:Int) ≤ st.curs + i := by omega
    rw [cdiv_eq_ediv (st.curs + i) hc3, cmod_eq_emod (st.curs + i) hc3]
    rw [hdisk ((st.curs + i) / 512) ((st.curs + i) % 512), if_pos (by omega),
      if_pos (by omega),
      (by omega : ((st.curs + i) / 512 - st.curs / 512) * 512 + (st.curs + i) % 512 -
        st.curs % 512 = i)]

/-- A block whose byte `j` holds the value `j`, with the cursor at 10; used
to exhibit boundary preservation concretely. -/
def patSt : FS := { curs := 10, size := 100, alloc := 0, disk := fun _ j => j }

/-- The 5-byte middle-of-block write of the C5 witness. -/
def patBuf : Int → Int := fun i => 100 + i

/-- The outcome of writing `patBuf` over bytes 10..14 of `patSt`. -/
def patRes : Int × FS := (fsWrite patSt 5 patBuf (fun _ => 0)).getD (0, FS0)

/-- Witness for `fsWrite_boundary_preservation`: after overwriting bytes
10..14 of block 0, byte 9 still holds its old value and byte 12 holds
`patBuf 2`. -/
theorem fsWrite_boundary_preservation_witness :
    patRes.2.disk (cdiv patSt.curs BYTESPERBLOCK) 9 =
      patSt.disk (cdiv patSt.curs BYTESPERBLOCK) 9 ∧
    patRes.2.disk (cdiv (patSt.curs + 2) BYTESPERBLOCK)
        (cmod (patSt.curs + 2) BYTESPERBLOCK) = patBuf 2 := by
  have H := fsWrite_boundary_preservation patSt 5 patBuf (fun _ => 0) patRes.1 patRes.2
    9 2 (by decide) rfl
  exact ⟨H.1 (by decide) (by decide) (by decide), H.2.2 (by decide) (by decide)⟩
